import Mathlib

/-!
Verification development for the lumber-exercise application.

The definitions below are shallow embeddings of the application's core logic:

* the statistics engine `SessionRepository.getStatistics`
  (src/src/data/repositories/SessionRepository.ts), which computes
  total sessions, current streak, longest streak, completion rate and the
  last completed date from the session history;
* the duration estimator `ExerciseService.calculateTotalDuration` /
  `RoutineService.calculateRoutineDuration`;
* `ExerciseService.validateExercise`;
* `RoutineService.createRoutine` / `RoutineService.deleteRoutine` /
  `RoutineService.getRoutineExercises`;
* `SessionService.createSession` / `SessionService.markExerciseComplete`
  together with the session-start flow of `SessionScreen.loadSession`.

Modelling conventions:

* Calendar days (the `date_iso` column, an ISO `yyyy-MM-dd` string) are
  modelled as `Int` day indices; `date-fns` `differenceInDays` on
  start-of-day values is exact subtraction of day indices, and
  lexicographic order of ISO date strings is the order of day indices.
* Timestamps are modelled as `Int` (milliseconds); the claims only compare
  them for equality.
* JavaScript truthiness of an optional number (`if (exercise.duration)`)
  is `Option Nat` being `some n` with `n ≠ 0`; truthiness of an optional
  string is `some s` with `s` non-empty.
* The check `!s || s.trim() === ''` holds exactly when every character of
  `s` is whitespace, which is how it is modelled (`String.trim` itself
  does not reduce in the kernel).
* `throw new Error(msg)` is modelled as `Except.error msg` with the exact
  message string of the source; SQL row stores are modelled as lists, with
  `getById` as `List.find?` on the id and autoincremented ids assigned
  from the list length on insert.
-/

namespace Lumber

/-! ## Statistics engine (SessionRepository.getStatistics) -/

/-- Row of the `session_logs` table as read by `getStatistics`: the calendar
day of `date_iso` (as an `Int` day index) and the `completed` flag. -/
structure SessionRow where
  day : Int
  completed : Bool
deriving DecidableEq

/-- Result record of `getStatistics` (domain model `Statistics`), with
`lastSessionDate` as an optional day index. -/
structure Statistics where
  totalSessions : Nat
  currentStreak : Nat
  longestStreak : Nat
  completionRate : Nat
  lastSessionDate : Option Int
deriving DecidableEq

/-- Days (`date_iso`) of the rows with `completed = 1`, in row order
(the `WHERE completed = 1` filter of the first query). -/
def completedDays (sessions : List SessionRow) : List Int :=
  (sessions.filter (fun s => s.completed)).map (fun s => s.day)

/-- The `uniqueDates` list of `getStatistics`:
`[...new Set(dates)].sort().reverse()` — distinct completed days sorted
descending (an ascending lexicographic sort of ISO date strings followed
by reversal).  On distinct elements the result is determined by the set of
days alone, so the order in which `dedup` keeps duplicates is irrelevant. -/
def uniqueDatesDesc (days : List Int) : List Int :=
  days.dedup.insertionSort (· ≥ ·)

/-- Length of the initial chain of consecutive (one-day-apart) days: the
number of further loop iterations both passes take while
`differenceInDays(uniqueDates[i-1], uniqueDates[i]) === 1` holds. -/
def chainLen : Int → List Int → Nat
  | _, [] => 0
  | prev, d :: rest => if prev - d = 1 then 1 + chainLen d rest else 0

/-- Iterations `i ≥ 1` of the first (current-streak) loop of
`getStatistics`.  State: previous date, `currentStreak`, `tempStreak`,
`longestStreak`; the `else break` arm stops the loop. -/
def pass1Go : Int → Nat → Nat → Nat → List Int → Nat × Nat × Nat
  | _, cur, temp, best, [] => (cur, temp, best)
  | prev, cur, temp, best, d :: rest =>
      if prev - d = 1 then pass1Go d (cur + 1) (temp + 1) (max best (temp + 1)) rest
      else (cur, temp, best)

/-- The first loop of `getStatistics`: returns the final
`(currentStreak, longestStreak)` after the current-streak pass.  Iteration
`i = 0` requires `differenceInDays(today, uniqueDates[0])` to be `0` or
`1` and sets `currentStreak = tempStreak = 1`,
`longestStreak = max 0 1`; otherwise the loop breaks with both at `0`. -/
def pass1 (today : Int) : List Int → Nat × Nat
  | [] => (0, 0)
  | d :: rest =>
      if today - d = 0 ∨ today - d = 1 then
        ((pass1Go d 1 1 (max 0 1) rest).1, (pass1Go d 1 1 (max 0 1) rest).2.2)
      else (0, 0)

/-- Iterations `i ≥ 1` of the second (longest-streak) loop of
`getStatistics`.  State: previous date, `tempStreak`, `longestStreak`; a
one-day difference increments `tempStreak` and records the maximum, any
other difference resets `tempStreak` to `1` without recording. -/
def pass2Go : Int → Nat → Nat → List Int → Nat
  | _, _, best, [] => best
  | prev, temp, best, d :: rest =>
      if prev - d = 1 then pass2Go d (temp + 1) (max best (temp + 1)) rest
      else pass2Go d 1 best rest

/-- The `longestStreak` value of `getStatistics`: the second loop
(`tempStreak = 1`, iterating over adjacent pairs) started from the
`longestStreak` value left by the first loop. -/
def longestStreakFn (today : Int) (ds : List Int) : Nat :=
  match ds with
  | [] => (pass1 today ds).2
  | d :: rest => pass2Go d 1 (pass1 today ds).2 rest

/-- Closed form of the first loop's `currentStreak` (proved equal to
`pass1` below): `1 +` the initial consecutive chain when the most recent
date is today or yesterday, `0` otherwise. -/
def currentStreakFn (today : Int) : List Int → Nat
  | [] => 0
  | d :: rest => if today - d = 0 ∨ today - d = 1 then 1 + chainLen d rest else 0

/-- Lengths of the maximal runs of consecutive days of `prev :: rest`, the
run containing `prev` having already accumulated length `temp`. -/
def runLens (prev : Int) (temp : Nat) : List Int → List Nat
  | [] => [temp]
  | d :: rest =>
      if prev - d = 1 then runLens d (temp + 1) rest
      else temp :: runLens d 1 rest

/-- Maximum of a list of naturals (`0` for the empty list). -/
def foldMax : List Nat → Nat
  | [] => 0
  | r :: rest => max r (foldMax rest)

/-- Maximum the second loop records over a run decomposition: the first
run counts only the part beyond the initial `temp`, i.e. only when it was
extended (recorded value is then its full length); every later run starts
at `1` and is recorded only when of length at least `2`. -/
def maxPass2 : Nat → List Nat → Nat
  | _, [] => 0
  | t, r :: rest => max (if t < r then r else 0) (maxPass2 1 rest)

/-- Scan computing the length of the longest run of consecutive days
(reference definition, not from the source): unlike `pass2Go` it also
records the final run in its base case. -/
def longestRunGo (prev : Int) (temp best : Nat) : List Int → Nat
  | [] => max best temp
  | d :: rest =>
      if prev - d = 1 then longestRunGo d (temp + 1) best rest
      else longestRunGo d 1 (max best temp) rest

/-- Length of the longest run of consecutive calendar days in a list of
distinct days sorted descending: `0` for the empty list, at least `1`
otherwise. -/
def longestRun : List Int → Nat
  | [] => 0
  | d :: rest => longestRunGo d 1 0 rest

/-- The `completionRate` of `getStatistics`:
`Math.round(completed / total * 100)` for `total > 0`, else `0`; round
half-up on a non-negative value is `(200 * completed + total) / (2 * total)`
in integer arithmetic. -/
def completionRateFn (completed total : Nat) : Nat :=
  if total = 0 then 0 else (200 * completed + total) / (2 * total)

/-- Shallow embedding of `SessionRepository.getStatistics` over the rows of
`session_logs`; `today` is `startOfDay(new Date())` as a day index. -/
def getStatistics (today : Int) (sessions : List SessionRow) : Statistics :=
  { totalSessions := sessions.length
    currentStreak := (pass1 today (uniqueDatesDesc (completedDays sessions))).1
    longestStreak := longestStreakFn today (uniqueDatesDesc (completedDays sessions))
    completionRate := completionRateFn (completedDays sessions).length sessions.length
    lastSessionDate := (uniqueDatesDesc (completedDays sessions)).head? }

/-! ## Domain model (src/domain/models.ts) -/

/-- Exercise measurement mode (`ExerciseType`). -/
inductive ExerciseType where
  | reps
  | duration
deriving DecidableEq

/-- Routine kind (`RoutineType`). -/
inductive RoutineType where
  | morning
  | evening
  | custom
deriving DecidableEq

/-- Domain `Exercise` entity; the fields not used by the embedded logic
(`targetMuscles`, `instructions`, `tips`, `warnings`) are omitted. -/
structure Exercise where
  id : String
  name : String
  description : String
  category : String
  type : ExerciseType
  reps : Option Nat
  duration : Option Nat
deriving DecidableEq

/-- Domain `Routine` entity. -/
structure Routine where
  id : String
  name : String
  type : RoutineType
  exerciseIds : List String
  estimatedDuration : Nat
deriving DecidableEq

/-- Domain `ExerciseCompletion` entity. -/
structure ExerciseCompletion where
  exerciseId : String
  completed : Bool
  reps : Option Nat
  duration : Option Nat
deriving DecidableEq

/-- Domain `SessionLog` entity; `startTime`/`endTime` are timestamps. -/
structure SessionLog where
  id : String
  routineId : String
  startTime : Int
  endTime : Option Int
  exercises : List ExerciseCompletion
  completed : Bool
deriving DecidableEq

/-! ## Duration estimation
(ExerciseService.calculateTotalDuration, RoutineService.calculateRoutineDuration;
both have the identical loop) -/

/-- Per-exercise seconds contributed by the estimation loop:
`if (exercise.duration) ... else if (exercise.reps) ...` — JavaScript
truthiness, so a `0` value falls through like an absent one. -/
def contribSeconds (e : Exercise) : Nat :=
  if e.duration.getD 0 ≠ 0 then e.duration.getD 0
  else if e.reps.getD 0 ≠ 0 then e.reps.getD 0 * 3
  else 0

/-- Total work seconds of the estimation loop. -/
def workSeconds : List Exercise → Nat
  | [] => 0
  | e :: rest => contribSeconds e + workSeconds rest

/-- Ceiling division by 60 on integers: `Math.ceil(n / 60)`; since `Int`
division is floor division, `(n + 59) / 60` is the exact ceiling of
`n / 60` for every integer `n`. -/
def ceilDiv60 (n : Int) : Int :=
  (n + 59) / 60

/-- Shallow embedding of `ExerciseService.calculateTotalDuration` (minutes):
work seconds plus `(exercises.length - 1) * 10` rest seconds (which is `-10`
for an empty list, JavaScript numbers being signed), rounded up to minutes. -/
def calculateTotalDuration (exercises : List Exercise) : Int :=
  ceilDiv60 ((workSeconds exercises : Int) + ((exercises.length : Int) - 1) * 10)

/-- Formula of the specification for the estimate: each exercise contributes
its `duration` seconds when duration-based and `reps * 3` seconds when
rep-based, rest is `10 * (count - 1)` seconds only when there are at least
two exercises, and the total is converted to minutes rounding up. -/
def specContribSeconds (e : Exercise) : Nat :=
  match e.type with
  | .duration => e.duration.getD 0
  | .reps => e.reps.getD 0 * 3

/-- Total seconds of the specification's estimate formula. -/
def specTotalSeconds (exercises : List Exercise) : Nat :=
  (exercises.map specContribSeconds).sum +
    (if 2 ≤ exercises.length then 10 * (exercises.length - 1) else 0)

/-- The specification's estimate in minutes: `ceil(T / 60)`. -/
def specEstimateMinutes (exercises : List Exercise) : Int :=
  ((specTotalSeconds exercises + 59) / 60 : Nat)

/-- Well-formedness invariant of the data model: the measurement mode
determines which of the target fields is populated — exactly one of
`reps`/`duration` is set, never both, never neither. -/
def wellFormedExercise (e : Exercise) : Prop :=
  match e.type with
  | .duration => e.duration ≠ none ∧ e.reps = none
  | .reps => e.reps ≠ none ∧ e.duration = none

instance (e : Exercise) : Decidable (wellFormedExercise e) := by
  unfold wellFormedExercise
  match e.type with
  | .duration => exact instDecidableAnd
  | .reps => exact instDecidableAnd

/-! ## Exercise validation (ExerciseService.validateExercise) -/

/-- Input of `validateExercise`, a `Partial<Exercise>`: every field may be
absent.  Only the fields the function inspects are modelled. -/
structure ExerciseInput where
  name : Option String
  description : Option String
  category : Option String
  reps : Option Nat
  duration : Option Nat
deriving DecidableEq

/-- JavaScript test `!s || s.trim() === ''` on an optional string: absent,
empty, or consisting only of whitespace. -/
def strBlank : Option String → Bool
  | none => true
  | some s => s.data.all (fun c => c.isWhitespace)

/-- JavaScript test `!s` on an optional string: absent or empty. -/
def strFalsy : Option String → Bool
  | none => true
  | some s => s == ""

/-- JavaScript test `!n` on an optional number: absent or zero. -/
def natFalsy : Option Nat → Bool
  | none => true
  | some n => n == 0

/-- Shallow embedding of `ExerciseService.validateExercise`: the four
checks in source order, returning the first failing check's message and
`none` when all pass. -/
def validateExercise (e : ExerciseInput) : Option String :=
  if strBlank e.name then some "Name is required"
  else if strBlank e.description then some "Description is required"
  else if strFalsy e.category then some "Category is required"
  else if natFalsy e.reps && natFalsy e.duration then
    some "Either reps or duration must be specified"
  else none

/-! ## Routine service (RoutineService) -/

/-- Catalog lookup `exerciseRepository.getById`: first exercise with the
given id. -/
def catalogGetById (catalog : List Exercise) (id : String) : Option Exercise :=
  catalog.find? (fun e => e.id == id)

/-- First id of the list that does not resolve in the catalog — the
validation loop of `createRoutine` fails on it. -/
def firstUnknownId (catalog : List Exercise) : List String → Option String
  | [] => none
  | id :: rest =>
      if (catalogGetById catalog id).isNone then some id
      else firstUnknownId catalog rest

/-- Insert of `RoutineRepository.save`: the database assigns the next
autoincremented id; modelled as appending with id `length + 1`. -/
def routineSave (store : List Routine) (r : Routine) : List Routine :=
  store ++ [{ r with id := toString (store.length + 1) }]

/-- Shallow embedding of `RoutineService.createRoutine`: empty/whitespace
title check, then empty-list check, then per-id catalog validation in
order, then `save` of a routine with kind `custom` and the placeholder
fields of the source (`id = '0'` before the store assigns one,
`estimatedDuration = 0`). -/
def createRoutine (catalog : List Exercise) (store : List Routine)
    (title : String) (exerciseIds : List String) : Except String (List Routine) :=
  if strBlank (some title) then Except.error "Routine title is required"
  else if exerciseIds.length = 0 then
    Except.error "Routine must contain at least one exercise"
  else
    match firstUnknownId catalog exerciseIds with
    | some id => Except.error ("Exercise with ID " ++ id ++ " not found")
    | none =>
        Except.ok (routineSave store
          { id := "0", name := title, type := RoutineType.custom,
            exerciseIds := exerciseIds, estimatedDuration := 0 })

/-- Store lookup `routineRepository.getById`. -/
def routineGetById (store : List Routine) (id : String) : Option Routine :=
  store.find? (fun r => r.id == id)

/-- Shallow embedding of `RoutineService.deleteRoutine`: `NotFound` for an
unknown id, `Forbidden` for the default kinds, else `DELETE ... WHERE id`. -/
def deleteRoutine (store : List Routine) (routineId : String) :
    Except String (List Routine) :=
  match routineGetById store routineId with
  | none => Except.error "Routine not found"
  | some r =>
      if r.type = RoutineType.morning ∨ r.type = RoutineType.evening then
        Except.error "Cannot delete default routines"
      else
        Except.ok (store.filter (fun x => !(x.id == routineId)))

/-- Shallow embedding of `RoutineService.getRoutineExercises`: fails with
the routine-not-found error for an unknown id; otherwise resolves each
exercise id through the catalog, silently skipping ids that no longer
resolve. -/
def getRoutineExercises (catalog : List Exercise) (store : List Routine)
    (routineId : String) : Except String (List Exercise) :=
  match routineGetById store routineId with
  | none => Except.error "Routine not found"
  | some r => Except.ok (r.exerciseIds.filterMap (catalogGetById catalog))

/-- Shallow embedding of `RoutineService.calculateRoutineDuration`: resolve
the routine's exercises, then run the estimation loop. -/
def calculateRoutineDuration (catalog : List Exercise) (store : List Routine)
    (routineId : String) : Except String Int :=
  match getRoutineExercises catalog store routineId with
  | Except.error e => Except.error e
  | Except.ok exercises => Except.ok (calculateTotalDuration exercises)

/-! ## Session service (SessionService, SessionScreen.loadSession) -/

/-- Store lookup `sessionRepository.getById`. -/
def sessionGetById (store : List SessionLog) (id : String) : Option SessionLog :=
  store.find? (fun s => s.id == id)

/-- Insert of `SessionRepository.save`: the database assigns the next
autoincremented id (`lastInsertRowId`), which the repository returns. -/
def sessionSave (store : List SessionLog) (s : SessionLog) : String × List SessionLog :=
  (toString (store.length + 1),
    store ++ [{ s with id := toString (store.length + 1) }])

/-- Update of `SessionRepository.update`: `UPDATE ... WHERE id` replaces
the rows whose id matches the updated session's id. -/
def sessionUpdate (store : List SessionLog) (s : SessionLog) : List SessionLog :=
  store.map (fun x => if x.id == s.id then s else x)

/-- Shallow embedding of `SessionService.createSession`: persists a new
log with start timestamp `now`, no completions and `completed = false`,
and returns the id the store assigned. -/
def createSession (store : List SessionLog) (routineId : String) (now : Int) :
    String × List SessionLog :=
  sessionSave store
    { id := "", routineId := routineId, startTime := now, endTime := none,
      exercises := [], completed := false }

/-- The session-start flow of `SessionScreen.loadSession`: resolve the
routine's exercises first (this propagates the routine-not-found error, in
which case `createSession` never runs), then create and persist the
session; returns the new session id and the updated store. -/
def startSession (catalog : List Exercise) (routines : List Routine)
    (store : List SessionLog) (routineId : String) (now : Int) :
    Except String (String × List SessionLog) :=
  match getRoutineExercises catalog routines routineId with
  | Except.error e => Except.error e
  | Except.ok _ => Except.ok (createSession store routineId now)

/-- The completion-collection update of `SessionService.markExerciseComplete`:
`findIndex` on the exercise id, replace in place when found, append
otherwise. -/
def upsertCompletion (exercises : List ExerciseCompletion)
    (c : ExerciseCompletion) : List ExerciseCompletion :=
  match exercises.findIdx? (fun e => e.exerciseId == c.exerciseId) with
  | some i => exercises.set i c
  | none => exercises ++ [c]

/-- Shallow embedding of `SessionService.markExerciseComplete`: fails when
the session id is unknown; otherwise upserts the completion record
`{exerciseId, completed: true, reps, duration}` and persists the updated
session. -/
def markExerciseComplete (store : List SessionLog) (sessionId exerciseId : String)
    (reps duration : Option Nat) : Except String (List SessionLog) :=
  match sessionGetById store sessionId with
  | none => Except.error "Session not found"
  | some session =>
      Except.ok (sessionUpdate store
        { session with
            exercises := upsertCompletion session.exercises
              { exerciseId := exerciseId, completed := true,
                reps := reps, duration := duration } })

/-- Keys (exercise ids) of a completion collection. -/
def completionKeys (exercises : List ExerciseCompletion) : List String :=
  exercises.map (fun e => e.exerciseId)

instance instDecidableEqExcept {ε α : Type} [DecidableEq ε] [DecidableEq α] :
    DecidableEq (Except ε α) := fun x y =>
  match x, y with
  | Except.error a, Except.error b =>
      if h : a = b then Decidable.isTrue (by rw [h])
      else Decidable.isFalse (fun hc => h (by injection hc))
  | Except.ok a, Except.ok b =>
      if h : a = b then Decidable.isTrue (by rw [h])
      else Decidable.isFalse (fun hc => h (by injection hc))
  | Except.error _, Except.ok _ => Decidable.isFalse (fun hc => Except.noConfusion hc)
  | Except.ok _, Except.error _ => Decidable.isFalse (fun hc => Except.noConfusion hc)

/-! ## Lemmas on the two streak passes -/

theorem pass1Go_eq (rest : List Int) : ∀ (prev : Int) (c tp b : Nat),
    pass1Go prev c tp b rest =
      (c + chainLen prev rest, tp + chainLen prev rest,
        if chainLen prev rest = 0 then b else max b (tp + chainLen prev rest)) := by
  induction rest with
  | nil => intro prev c tp b; simp [pass1Go, chainLen]
  | cons d rest ih =>
      intro prev c tp b
      by_cases h : prev - d = 1
      · simp only [pass1Go, chainLen, if_pos h, ih, Prod.mk.injEq]
        refine ⟨by omega, by omega, ?_⟩
        split_ifs <;> omega
      · simp [pass1Go, chainLen, if_neg h]

theorem pass1_fst (t : Int) (ds : List Int) :
    (pass1 t ds).1 = currentStreakFn t ds := by
  cases ds with
  | nil => rfl
  | cons d rest =>
      simp only [pass1, currentStreakFn]
      split_ifs with h
      · simp [pass1Go_eq]
      · rfl

theorem pass1_snd (t : Int) (ds : List Int) :
    (pass1 t ds).2 = currentStreakFn t ds := by
  cases ds with
  | nil => rfl
  | cons d rest =>
      simp only [pass1, currentStreakFn]
      split_ifs with h
      · simp only [pass1Go_eq]
        split_ifs <;> omega
      · rfl

theorem runLens_head (rest : List Int) : ∀ (prev : Int) (temp : Nat),
    ∃ tl, runLens prev temp rest = (temp + chainLen prev rest) :: tl := by
  induction rest with
  | nil => intro prev temp; exact ⟨[], by simp [runLens, chainLen]⟩
  | cons d rest ih =>
      intro prev temp
      by_cases h : prev - d = 1
      · obtain ⟨tl, htl⟩ := ih d (temp + 1)
        refine ⟨tl, ?_⟩
        simp only [runLens, chainLen, if_pos h, htl, List.cons.injEq]
        refine ⟨by omega, ?_⟩
        try rfl
        try trivial
      · exact ⟨runLens d 1 rest, by simp [runLens, chainLen, if_neg h]⟩

theorem longestRunGo_eq (rest : List Int) : ∀ (prev : Int) (temp best : Nat),
    longestRunGo prev temp best rest = max best (foldMax (runLens prev temp rest)) := by
  induction rest with
  | nil => intro prev temp best; simp [longestRunGo, runLens, foldMax]
  | cons d rest ih =>
      intro prev temp best
      by_cases h : prev - d = 1
      · simp [longestRunGo, runLens, if_pos h, ih]
      · simp only [longestRunGo, runLens, if_neg h, ih, foldMax]
        omega

theorem pass2Go_eq (rest : List Int) : ∀ (prev : Int) (temp best : Nat),
    pass2Go prev temp best rest = max best (maxPass2 temp (runLens prev temp rest)) := by
  induction rest with
  | nil =>
      intro prev temp best
      simp only [pass2Go, runLens, maxPass2]
      split_ifs <;> omega
  | cons d rest ih =>
      intro prev temp best
      by_cases h : prev - d = 1
      · obtain ⟨tl, htl⟩ := runLens_head rest d (temp + 1)
        simp only [pass2Go, runLens, if_pos h, ih, htl, maxPass2]
        split_ifs <;> omega
      · simp only [pass2Go, runLens, if_neg h, ih, maxPass2]
        split_ifs <;> omega

theorem maxPass2_one (L : List Nat) :
    maxPass2 1 L = if 2 ≤ foldMax L then foldMax L else 0 := by
  induction L with
  | nil => simp [maxPass2, foldMax]
  | cons r tl ih =>
      simp only [maxPass2, foldMax, ih]
      split_ifs <;> omega

theorem currentStreakFn_le (t d : Int) (rest : List Int) :
    currentStreakFn t (d :: rest) ≤ 1 + chainLen d rest := by
  simp only [currentStreakFn]
  split_ifs <;> omega

theorem longestStreakFn_eq (t : Int) (ds : List Int) :
    longestStreakFn t ds =
      if 2 ≤ longestRun ds then longestRun ds else currentStreakFn t ds := by
  cases ds with
  | nil => simp [longestStreakFn, pass1, longestRun, currentStreakFn]
  | cons d rest =>
      obtain ⟨tl, htl⟩ := runLens_head rest d 1
      have hF : 1 + chainLen d rest ≤ foldMax (runLens d 1 rest) := by
        rw [htl]; simp only [foldMax]; omega
      have hcle := currentStreakFn_le t d rest
      simp only [longestStreakFn, pass2Go_eq, maxPass2_one, longestRun,
        longestRunGo_eq, pass1_snd]
      split_ifs <;> omega

theorem pass2Go_best_le (rest : List Int) : ∀ (prev : Int) (temp best : Nat),
    best ≤ pass2Go prev temp best rest := by
  induction rest with
  | nil => intro prev temp best; exact Nat.le_refl best
  | cons d rest ih =>
      intro prev temp best
      by_cases h : prev - d = 1
      · simp only [pass2Go, if_pos h]
        exact le_trans (le_max_left best (temp + 1)) (ih d (temp + 1) _)
      · simp only [pass2Go, if_neg h]
        exact ih d 1 best

theorem currentStreakFn_gap (t : Int) :
    currentStreakFn t [t, t - 1, t - 2, t - 4] = 3 := by
  have e1 : t - (t - 1) = 1 := by ring
  have e2 : (t - 1) - (t - 2) = 1 := by ring
  have e3 : (t - 2) - (t - 4) = 2 := by ring
  simp [currentStreakFn, chainLen, sub_self, e1, e2, e3]

/-! ## Claims C1-C3: the statistics engine -/

/-- C1: for a history whose completed sessions fall exactly on the calendar
days today, today-1, today-2 and today-4 (each day carrying at least one
completed session), `getStatistics` reports `currentStreak = 3`,
`longestStreak = 3` and `lastSessionDate` = today. -/
theorem getStatistics_gap_day (t : Int) (sessions : List SessionRow)
    (h : ∀ d : Int, d ∈ completedDays sessions ↔ d ∈ [t, t - 1, t - 2, t - 4]) :
    (getStatistics t sessions).currentStreak = 3 ∧
      (getStatistics t sessions).longestStreak = 3 ∧
      (getStatistics t sessions).lastSessionDate = some t := by
  have hnd : uniqueDatesDesc (completedDays sessions) = [t, t - 1, t - 2, t - 4] := by
    haveI : IsAntisymm Int (· ≥ ·) := ⟨fun a b h1 h2 => le_antisymm h2 h1⟩
    have hTnd : ([t, t - 1, t - 2, t - 4] : List Int).Nodup := by
      simp [List.nodup_cons]
      omega
    have htf : (completedDays sessions).dedup.toFinset =
        ([t, t - 1, t - 2, t - 4] : List Int).toFinset := by
      ext a
      simp only [List.mem_toFinset, List.mem_dedup]
      exact h a
    refine List.eq_of_perm_of_sorted
      ((List.perm_insertionSort _ _).trans
        (List.perm_of_nodup_nodup_toFinset_eq (List.nodup_dedup _) hTnd htf))
      (List.sorted_insertionSort _ _) ?_
    simp [List.sorted_cons]
    omega
  have hcur : (pass1 t [t, t - 1, t - 2, t - 4]).2 = 3 := by
    rw [pass1_snd]; exact currentStreakFn_gap t
  refine ⟨?_, ?_, ?_⟩
  · show (pass1 t (uniqueDatesDesc (completedDays sessions))).1 = 3
    rw [hnd, pass1_fst]
    exact currentStreakFn_gap t
  · show longestStreakFn t (uniqueDatesDesc (completedDays sessions)) = 3
    rw [hnd]
    have e1 : t - (t - 1) = 1 := by ring
    have e2 : (t - 1) - (t - 2) = 1 := by ring
    have e3 : (t - 2) - (t - 4) = 2 := by ring
    simp [longestStreakFn, hcur, pass2Go, e1, e2, e3]
  · show (uniqueDatesDesc (completedDays sessions)).head? = some t
    rw [hnd]
    rfl

/-- Witness for C1 at a concrete history: completed sessions on days 10, 9,
8 and 6 (and an uncompleted one on day 7) with today = 10. -/
theorem getStatistics_gap_day_witness :
    (getStatistics 10
        [⟨10, true⟩, ⟨9, true⟩, ⟨8, true⟩, ⟨6, true⟩, ⟨7, false⟩]).currentStreak = 3 ∧
      (getStatistics 10
        [⟨10, true⟩, ⟨9, true⟩, ⟨8, true⟩, ⟨6, true⟩, ⟨7, false⟩]).longestStreak = 3 ∧
      (getStatistics 10
        [⟨10, true⟩, ⟨9, true⟩, ⟨8, true⟩, ⟨6, true⟩, ⟨7, false⟩]).lastSessionDate =
        some 10 :=
  getStatistics_gap_day 10 [⟨10, true⟩, ⟨9, true⟩, ⟨8, true⟩, ⟨6, true⟩, ⟨7, false⟩]
    (by
      intro d
      show d ∈ [(10 : Int), 9, 8, 6] ↔ _
      simp only [List.mem_cons, List.not_mem_nil, or_false]
      omega)

/-- C2 counterexample: a history with exactly one completed session, on the
day before yesterday.  The longest run of consecutive days among the
distinct completed dates is `1`, yet `getStatistics` reports
`longestStreak = 0` — contradicting the claim that `longestStreak` equals
that run length and is at least `1` whenever a completed session exists. -/
theorem getStatistics_isolated_date_counterexample :
    (getStatistics 10 [⟨8, true⟩]).longestStreak = 0 ∧
      longestRun (uniqueDatesDesc (completedDays [⟨8, true⟩])) = 1 ∧
      completedDays [(⟨8, true⟩ : SessionRow)] ≠ [] := by decide

/-- C2 (amended): `longestStreak` equals the length of the longest run of
consecutive calendar days among the distinct completed dates whenever some
run has length at least `2`; otherwise (all runs are singletons, or no
completed session exists) it falls back to `currentStreak` — which is `1`
when the most recent completed date is today or yesterday and `0`
otherwise, so an isolated historical date yields `0`, not `1`. -/
theorem getStatistics_longestStreak_characterization (t : Int)
    (sessions : List SessionRow) :
    (getStatistics t sessions).longestStreak =
      if 2 ≤ longestRun (uniqueDatesDesc (completedDays sessions))
      then longestRun (uniqueDatesDesc (completedDays sessions))
      else (getStatistics t sessions).currentStreak := by
  show longestStreakFn t (uniqueDatesDesc (completedDays sessions)) = _
  rw [longestStreakFn_eq]
  have hp : (pass1 t (uniqueDatesDesc (completedDays sessions))).1 =
      currentStreakFn t (uniqueDatesDesc (completedDays sessions)) := pass1_fst t _
  show _ = if _ then _ else (pass1 t (uniqueDatesDesc (completedDays sessions))).1
  rw [hp]

/-- C3: `longestStreak` is always at least `currentStreak`, although the
two are produced by two separate passes over the sorted distinct dates:
the second pass starts its maximum at the value the first pass left. -/
theorem getStatistics_longest_ge_current (t : Int) (sessions : List SessionRow) :
    (getStatistics t sessions).currentStreak ≤
      (getStatistics t sessions).longestStreak := by
  show (pass1 t (uniqueDatesDesc (completedDays sessions))).1 ≤
    longestStreakFn t (uniqueDatesDesc (completedDays sessions))
  cases hud : uniqueDatesDesc (completedDays sessions) with
  | nil => simp [pass1, longestStreakFn]
  | cons d rest =>
      have h12 : (pass1 t (d :: rest)).1 = (pass1 t (d :: rest)).2 := by
        rw [pass1_fst, pass1_snd]
      simp only [longestStreakFn, h12]
      exact pass2Go_best_le rest d 1 _

/-! ## Claim C4: the duration estimate -/

theorem contribSeconds_eq_spec (e : Exercise) (h : wellFormedExercise e) :
    contribSeconds e = specContribSeconds e := by
  cases he : e.type with
  | duration =>
      simp only [wellFormedExercise, he] at h
      obtain ⟨hd, hr⟩ := h
      cases hdu : e.duration with
      | none => exact absurd hdu hd
      | some d =>
          simp only [contribSeconds, specContribSeconds, he, hr, hdu,
            Option.getD_some, Option.getD_none]
          split_ifs <;> omega
  | reps =>
      simp only [wellFormedExercise, he] at h
      obtain ⟨hr, hd⟩ := h
      cases hre : e.reps with
      | none => exact absurd hre hr
      | some r =>
          simp only [contribSeconds, specContribSeconds, he, hd, hre,
            Option.getD_some, Option.getD_none]
          split_ifs <;> omega

theorem workSeconds_eq_spec (exs : List Exercise)
    (h : ∀ e ∈ exs, wellFormedExercise e) :
    workSeconds exs = (exs.map specContribSeconds).sum := by
  induction exs with
  | nil => rfl
  | cons e rest ih =>
      simp only [workSeconds, List.map_cons, List.sum_cons]
      rw [contribSeconds_eq_spec e (h e (List.mem_cons_self e rest)),
        ih (fun x hx => h x (List.mem_cons_of_mem e hx))]

/-- C4: for every list of well-formed exercises (the data-model invariant:
the measurement mode determines which of `reps`/`duration` is set, exactly
one of them), the estimated duration equals the specification's formula —
duration seconds for duration-based exercises, `reps * 3` seconds for
rep-based ones, `10 * (count - 1)` rest seconds when there are at least
two exercises, total rounded up to minutes. -/
theorem calculateTotalDuration_eq_spec (exs : List Exercise)
    (h : ∀ e ∈ exs, wellFormedExercise e) :
    calculateTotalDuration exs = specEstimateMinutes exs := by
  have hw := workSeconds_eq_spec exs h
  cases exs with
  | nil => decide
  | cons e rest =>
      simp only [calculateTotalDuration, specEstimateMinutes, specTotalSeconds,
        ceilDiv60, hw]
      have hn : 1 ≤ (e :: rest).length := by simp
      split_ifs <;> omega

/-- Witness for C4: a 30-second and a 60-second duration exercise give 100
total seconds and an estimate of 2 minutes. -/
theorem calculateTotalDuration_eq_spec_witness :
    calculateTotalDuration
        [⟨"1", "Plank", "d", "strengthening", ExerciseType.duration, none, some 30⟩,
         ⟨"2", "Hold", "d", "strengthening", ExerciseType.duration, none, some 60⟩] =
      specEstimateMinutes
        [⟨"1", "Plank", "d", "strengthening", ExerciseType.duration, none, some 30⟩,
         ⟨"2", "Hold", "d", "strengthening", ExerciseType.duration, none, some 60⟩] ∧
    calculateTotalDuration
        [⟨"1", "Plank", "d", "strengthening", ExerciseType.duration, none, some 30⟩,
         ⟨"2", "Hold", "d", "strengthening", ExerciseType.duration, none, some 60⟩] = 2 :=
  ⟨calculateTotalDuration_eq_spec _ (by decide), by decide⟩

/-! ## Claims C5 and C10: completion recording -/

theorem upsertCompletion_cons (x : ExerciseCompletion) (rest : List ExerciseCompletion)
    (c : ExerciseCompletion) :
    upsertCompletion (x :: rest) c =
      if x.exerciseId == c.exerciseId then c :: rest
      else x :: upsertCompletion rest c := by
  simp only [upsertCompletion, List.findIdx?_cons, List.findIdx?_succ]
  by_cases h : (x.exerciseId == c.exerciseId) = true
  · simp [h]
  · simp only [h, if_false, Bool.false_eq_true]
    cases hfi : List.findIdx? (fun e => e.exerciseId == c.exerciseId) rest with
    | none => simp [hfi]
    | some i => simp [hfi, List.set_cons_succ]

theorem upsertCompletion_key_mem (exs : List ExerciseCompletion)
    (c : ExerciseCompletion) (h : c.exerciseId ∈ completionKeys exs) :
    (upsertCompletion exs c).length = exs.length ∧
      completionKeys (upsertCompletion exs c) = completionKeys exs ∧
      (upsertCompletion exs c).find? (fun e => e.exerciseId == c.exerciseId) =
        some c := by
  induction exs with
  | nil => simp [completionKeys] at h
  | cons x rest ih =>
      rw [upsertCompletion_cons]
      by_cases hx : (x.exerciseId == c.exerciseId) = true
      · rw [if_pos hx]
        refine ⟨rfl, ?_, ?_⟩
        · simp [completionKeys, eq_of_beq hx]
        · exact List.find?_cons_of_pos _ (beq_self_eq_true c.exerciseId)
      · rw [if_neg hx]
        have hmem : c.exerciseId ∈ completionKeys rest := by
          simp only [completionKeys, List.map_cons, List.mem_cons] at h
          rcases h with h1 | h2
          · exact absurd (beq_iff_eq.mpr h1.symm) hx
          · exact h2
        obtain ⟨hl, hk, hf⟩ := ih hmem
        refine ⟨by simp [hl], ?_, ?_⟩
        · simp only [completionKeys, List.map_cons] at hk ⊢
          rw [hk]
        · rw [@List.find?_cons_of_neg _ (fun e => e.exerciseId == c.exerciseId) x
            (upsertCompletion rest c) hx]
          exact hf

theorem upsertCompletion_key_not_mem (exs : List ExerciseCompletion)
    (c : ExerciseCompletion) (h : c.exerciseId ∉ completionKeys exs) :
    upsertCompletion exs c = exs ++ [c] := by
  induction exs with
  | nil => rfl
  | cons x rest ih =>
      rw [upsertCompletion_cons]
      have hx : ¬(x.exerciseId == c.exerciseId) = true := by
        intro hb
        exact h (by simp [completionKeys, (eq_of_beq hb).symm])
      rw [if_neg hx]
      have hrest : c.exerciseId ∉ completionKeys rest := by
        intro hm
        exact h (by simp only [completionKeys, List.map_cons, List.mem_cons]; right; exact hm)
      rw [ih hrest]
      rfl

theorem sessionGetById_update (store : List SessionLog) (sid : String)
    (s u : SessionLog) (hid : u.id = s.id) :
    sessionGetById store sid = some s →
      sessionGetById (sessionUpdate store u) sid = some u := by
  induction store with
  | nil => intro hfind; simp [sessionGetById] at hfind
  | cons x rest ih =>
      intro hfind
      simp only [sessionGetById, sessionUpdate, List.map_cons] at hfind ⊢
      by_cases hx : (x.id == sid) = true
      · rw [@List.find?_cons_of_pos _ (fun s => s.id == sid) x rest hx] at hfind
        have hxs : x = s := by injection hfind
        subst hxs
        have hxu : (x.id == u.id) = true := beq_iff_eq.mpr hid.symm
        rw [if_pos hxu]
        exact @List.find?_cons_of_pos _ (fun s => s.id == sid) u
          (List.map (fun x => if (x.id == u.id) = true then u else x) rest)
          (beq_iff_eq.mpr (hid.trans (eq_of_beq hx)))
      · rw [@List.find?_cons_of_neg _ (fun s => s.id == sid) x rest hx] at hfind
        have hs : (s.id == sid) = true :=
          @List.find?_some _ (fun s => s.id == sid) s rest hfind
        have hxu : ¬(x.id == u.id) = true := by
          intro hb
          exact hx (beq_iff_eq.mpr ((eq_of_beq hb).trans (hid.trans (eq_of_beq hs))))
        rw [if_neg hxu]
        rw [@List.find?_cons_of_neg _ (fun s => s.id == sid) x
          (List.map (fun x => if (x.id == u.id) = true then u else x) rest) hx]
        exact ih hfind

/-- C5: recording a completion upserts.  For an existing session, the
operation succeeds and persists the session with its completion collection
upserted; when the exercise id is already present the collection keeps its
length and its key sequence (so at most one entry per id is preserved) and
the entry for the id now carries the newly supplied values
(last-write-wins); when the id is absent exactly one new entry is
appended. -/
theorem markExerciseComplete_upsert (store : List SessionLog) (sid eid : String)
    (r d : Option Nat) (s : SessionLog)
    (hfind : sessionGetById store sid = some s) :
    markExerciseComplete store sid eid r d =
        Except.ok (sessionUpdate store
          { s with exercises := upsertCompletion s.exercises ⟨eid, true, r, d⟩ }) ∧
      sessionGetById
          (sessionUpdate store
            { s with exercises := upsertCompletion s.exercises ⟨eid, true, r, d⟩ })
          sid =
        some { s with exercises := upsertCompletion s.exercises ⟨eid, true, r, d⟩ } ∧
      (eid ∈ completionKeys s.exercises →
        (upsertCompletion s.exercises ⟨eid, true, r, d⟩).length =
            s.exercises.length ∧
          completionKeys (upsertCompletion s.exercises ⟨eid, true, r, d⟩) =
            completionKeys s.exercises ∧
          (upsertCompletion s.exercises ⟨eid, true, r, d⟩).find?
              (fun e => e.exerciseId == eid) =
            some ⟨eid, true, r, d⟩) ∧
      (eid ∉ completionKeys s.exercises →
        upsertCompletion s.exercises ⟨eid, true, r, d⟩ =
          s.exercises ++ [⟨eid, true, r, d⟩]) := by
  refine ⟨?_, ?_, ?_, ?_⟩
  · simp only [markExerciseComplete, hfind]
  · exact sessionGetById_update store sid s _ rfl hfind
  · intro hmem
    exact upsertCompletion_key_mem s.exercises ⟨eid, true, r, d⟩ hmem
  · intro hmem
    exact upsertCompletion_key_not_mem s.exercises ⟨eid, true, r, d⟩ hmem

/-- Witness for C5: recording reps 12 for exercise id 5 already recorded
with reps 10 keeps the collection at length one with the new value;
recording for the absent id 6 appends one entry. -/
theorem markExerciseComplete_upsert_witness :
    markExerciseComplete
        [⟨"1", "2", 0, none, [⟨"5", true, some 10, none⟩], false⟩] "1" "5"
        (some 12) none =
      Except.ok [⟨"1", "2", 0, none, [⟨"5", true, some 12, none⟩], false⟩] ∧
    (upsertCompletion [⟨"5", true, some 10, none⟩] ⟨"5", true, some 12, none⟩).length =
      1 ∧
    upsertCompletion [⟨"5", true, some 10, none⟩] ⟨"6", true, none, some 30⟩ =
      [⟨"5", true, some 10, none⟩, ⟨"6", true, none, some 30⟩] := by
  have h1 := markExerciseComplete_upsert
    [⟨"1", "2", 0, none, [⟨"5", true, some 10, none⟩], false⟩] "1" "5"
    (some 12) none ⟨"1", "2", 0, none, [⟨"5", true, some 10, none⟩], false⟩
    (by decide)
  have h2 := markExerciseComplete_upsert
    [⟨"1", "2", 0, none, [⟨"5", true, some 10, none⟩], false⟩] "1" "6"
    none (some 30) ⟨"1", "2", 0, none, [⟨"5", true, some 10, none⟩], false⟩
    (by decide)
  refine ⟨?_, (h1.2.2.1 (by decide)).1, h2.2.2.2 (by decide)⟩
  have := h1.1
  simpa using this

/-- C10: recording a completion changes only the exercise-completion
collection of the target session — its id, routine id, start time, end
time and completed flag are unchanged in the persisted result. -/
theorem markExerciseComplete_frame (store : List SessionLog) (sid eid : String)
    (r d : Option Nat) (s : SessionLog)
    (hfind : sessionGetById store sid = some s) :
    ∃ store' s', markExerciseComplete store sid eid r d = Except.ok store' ∧
      sessionGetById store' sid = some s' ∧
      s'.id = s.id ∧ s'.routineId = s.routineId ∧ s'.startTime = s.startTime ∧
      s'.endTime = s.endTime ∧ s'.completed = s.completed := by
  refine ⟨sessionUpdate store
      { s with exercises := upsertCompletion s.exercises ⟨eid, true, r, d⟩ },
    { s with exercises := upsertCompletion s.exercises ⟨eid, true, r, d⟩ },
    ?_, ?_, rfl, rfl, rfl, rfl, rfl⟩
  · simp only [markExerciseComplete, hfind]
  · exact sessionGetById_update store sid s _ rfl hfind

/-- Witness for C10 at a concrete session store. -/
theorem markExerciseComplete_frame_witness :
    ∃ store' s',
      markExerciseComplete
          [⟨"1", "2", 5, some 9, [⟨"5", true, some 10, none⟩], true⟩] "1" "7"
          (some 3) none =
        Except.ok store' ∧
      sessionGetById store' "1" = some s' ∧
      s'.id = "1" ∧ s'.routineId = "2" ∧ s'.startTime = 5 ∧
      s'.endTime = some 9 ∧ s'.completed = true :=
  markExerciseComplete_frame
    [⟨"1", "2", 5, some 9, [⟨"5", true, some 10, none⟩], true⟩] "1" "7"
    (some 3) none ⟨"1", "2", 5, some 9, [⟨"5", true, some 10, none⟩], true⟩
    (by decide)

/-! ## Claim C6: routine creation validation -/

theorem firstUnknownId_append (catalog : List Exercise) (pre : List String)
    (bad : String) (rest : List String)
    (hpre : ∀ x ∈ pre, (catalogGetById catalog x).isSome = true)
    (hbad : catalogGetById catalog bad = none) :
    firstUnknownId catalog (pre ++ bad :: rest) = some bad := by
  induction pre with
  | nil => simp [firstUnknownId, hbad]
  | cons p ps ih =>
      obtain ⟨v, hv⟩ := Option.isSome_iff_exists.mp (hpre p (List.mem_cons_self p ps))
      simp only [List.cons_append, firstUnknownId, hv, Option.isNone_some,
        Bool.false_eq_true, if_false]
      exact ih (fun x hx => hpre x (List.mem_cons_of_mem p hx))

theorem firstUnknownId_none (catalog : List Exercise) (ids : List String)
    (h : ∀ x ∈ ids, (catalogGetById catalog x).isSome = true) :
    firstUnknownId catalog ids = none := by
  induction ids with
  | nil => rfl
  | cons p ps ih =>
      obtain ⟨v, hv⟩ := Option.isSome_iff_exists.mp (h p (List.mem_cons_self p ps))
      simp only [firstUnknownId, hv, Option.isNone_some, Bool.false_eq_true, if_false]
      exact ih (fun x hx => h x (List.mem_cons_of_mem p hx))

/-- C6: routine creation validates in a fixed order and fails fast.  An
empty or whitespace-only name fails with the empty-title error even when
the exercise list is also empty; a non-empty name with an empty id list
fails with the empty-list error; a list containing an unresolvable id
fails on the first such id, naming it in the error; when all checks pass
the created routine is persisted with kind `custom`. -/
theorem createRoutine_validation (catalog : List Exercise) (store : List Routine)
    (title : String) (ids : List String) :
    (strBlank (some title) = true →
      createRoutine catalog store title ids =
        Except.error "Routine title is required") ∧
    (strBlank (some title) = false → ids = [] →
      createRoutine catalog store title ids =
        Except.error "Routine must contain at least one exercise") ∧
    (∀ pre bad rest, strBlank (some title) = false → ids = pre ++ bad :: rest →
      (∀ x ∈ pre, (catalogGetById catalog x).isSome = true) →
      catalogGetById catalog bad = none →
      createRoutine catalog store title ids =
        Except.error ("Exercise with ID " ++ bad ++ " not found")) ∧
    (strBlank (some title) = false →
      (∀ x ∈ ids, (catalogGetById catalog x).isSome = true) → ids ≠ [] →
      ∃ rnew, createRoutine catalog store title ids = Except.ok (store ++ [rnew]) ∧
        rnew.type = RoutineType.custom ∧ rnew.name = title ∧
        rnew.exerciseIds = ids) := by
  refine ⟨?_, ?_, ?_, ?_⟩
  · intro hb
    simp [createRoutine, hb]
  · intro hb hids
    subst hids
    simp [createRoutine, hb]
  · intro pre bad rest hb hids hpre hbad
    subst hids
    have hlen : (pre ++ bad :: rest).length ≠ 0 := by simp
    simp [createRoutine, hb, hlen, firstUnknownId_append catalog pre bad rest hpre hbad]
  · intro hb hall hne
    have hlen : ids.length ≠ 0 := by
      cases ids with
      | nil => exact absurd rfl hne
      | cons p ps => simp
    refine ⟨{ id := toString (store.length + 1),
              name := title,
              type := RoutineType.custom,
              exerciseIds := ids,
              estimatedDuration := 0 },
      ?_, rfl, rfl, rfl⟩
    simp [createRoutine, hb, hlen, firstUnknownId_none catalog ids hall, routineSave]

/-- Witness for C6 with a one-exercise catalog: the three failures in
order and a successful creation of a `custom` routine. -/
theorem createRoutine_validation_witness :
    createRoutine [⟨"1", "A", "d", "stretching", ExerciseType.reps, some 10, none⟩]
        [] "  " [] = Except.error "Routine title is required" ∧
    createRoutine [⟨"1", "A", "d", "stretching", ExerciseType.reps, some 10, none⟩]
        [] "Name" [] = Except.error "Routine must contain at least one exercise" ∧
    createRoutine [⟨"1", "A", "d", "stretching", ExerciseType.reps, some 10, none⟩]
        [] "Name" ["9"] = Except.error ("Exercise with ID " ++ "9" ++ " not found") ∧
    (∃ rnew,
      createRoutine [⟨"1", "A", "d", "stretching", ExerciseType.reps, some 10, none⟩]
          [] "Name" ["1"] = Except.ok ([] ++ [rnew]) ∧
        rnew.type = RoutineType.custom ∧ rnew.name = "Name" ∧
        rnew.exerciseIds = ["1"]) :=
  ⟨(createRoutine_validation
      [⟨"1", "A", "d", "stretching", ExerciseType.reps, some 10, none⟩] [] "  " []).1
      (by decide),
    (createRoutine_validation
      [⟨"1", "A", "d", "stretching", ExerciseType.reps, some 10, none⟩] [] "Name" []).2.1
      (by decide) rfl,
    (createRoutine_validation
      [⟨"1", "A", "d", "stretching", ExerciseType.reps, some 10, none⟩] []
      "Name" ["9"]).2.2.1 [] "9" [] (by decide) rfl (by decide) (by decide),
    (createRoutine_validation
      [⟨"1", "A", "d", "stretching", ExerciseType.reps, some 10, none⟩] []
      "Name" ["1"]).2.2.2 (by decide) (by decide) (by decide)⟩

/-! ## Claim C7: routine deletion policy -/

/-- C7: deleting an unknown routine id fails with the not-found error;
deleting an existing routine of the default kinds `morning`/`evening`
fails with the forbidden error and the routine is still in the store;
deleting an existing `custom` routine succeeds and removes it. -/
theorem deleteRoutine_spec (store : List Routine) (rid : String) :
    (routineGetById store rid = none →
      deleteRoutine store rid = Except.error "Routine not found") ∧
    (∀ r, routineGetById store rid = some r →
      r.type = RoutineType.morning ∨ r.type = RoutineType.evening →
      deleteRoutine store rid = Except.error "Cannot delete default routines" ∧
        r ∈ store) ∧
    (∀ r, routineGetById store rid = some r → r.type = RoutineType.custom →
      deleteRoutine store rid =
          Except.ok (store.filter (fun x => !(x.id == rid))) ∧
        ∀ x ∈ store.filter (fun x => !(x.id == rid)), x.id ≠ rid) := by
  refine ⟨?_, ?_, ?_⟩
  · intro h
    simp [deleteRoutine, h]
  · intro r hfind htype
    refine ⟨by simp [deleteRoutine, hfind, htype], ?_⟩
    exact List.mem_of_find?_eq_some hfind
  · intro r hfind htype
    have hnd : ¬(r.type = RoutineType.morning ∨ r.type = RoutineType.evening) := by
      rw [htype]
      intro hc
      rcases hc with hc | hc <;> exact RoutineType.noConfusion hc
    refine ⟨by simp [deleteRoutine, hfind, hnd], ?_⟩
    intro x hx
    have hpx := (List.mem_filter.mp hx).2
    simpa using hpx

/-- Witness for C7: unknown id, a seeded morning routine, and a custom
routine with the same id shape. -/
theorem deleteRoutine_spec_witness :
    deleteRoutine [] "1" = Except.error "Routine not found" ∧
    (deleteRoutine [⟨"1", "Morning Routine", RoutineType.morning, ["1"], 0⟩] "1" =
        Except.error "Cannot delete default routines" ∧
      (⟨"1", "Morning Routine", RoutineType.morning, ["1"], 0⟩ : Routine) ∈
        [⟨"1", "Morning Routine", RoutineType.morning, ["1"], 0⟩]) ∧
    (deleteRoutine [⟨"1", "Mine", RoutineType.custom, ["1"], 0⟩] "1" =
        Except.ok
          (List.filter (fun x => !(x.id == "1"))
            [⟨"1", "Mine", RoutineType.custom, ["1"], 0⟩]) ∧
      ∀ x ∈ List.filter (fun x => !(x.id == "1"))
          [(⟨"1", "Mine", RoutineType.custom, ["1"], 0⟩ : Routine)], x.id ≠ "1") :=
  ⟨(deleteRoutine_spec [] "1").1 (by decide),
    (deleteRoutine_spec [⟨"1", "Morning Routine", RoutineType.morning, ["1"], 0⟩]
      "1").2.1 ⟨"1", "Morning Routine", RoutineType.morning, ["1"], 0⟩ (by decide)
      (Or.inl rfl),
    (deleteRoutine_spec [⟨"1", "Mine", RoutineType.custom, ["1"], 0⟩] "1").2.2
      ⟨"1", "Mine", RoutineType.custom, ["1"], 0⟩ (by decide) rfl⟩

/-! ## Claim C8: exercise validation -/

/-- C8 counterexample: a definition with BOTH `reps` and `duration` set
validates as correct (`validateExercise` returns no error), contradicting
the claimed exactly-one-of check; and a definition with exactly one of the
two present but zero-valued is rejected, because the code tests JavaScript
truthiness (`!reps && !duration`), not presence. -/
theorem validateExercise_both_set_counterexample :
    validateExercise ⟨some "Test", some "Desc", some "strengthening",
        some 10, some 30⟩ = none ∧
      (⟨some "Test", some "Desc", some "strengthening", some 10, some 30⟩ :
          ExerciseInput).reps ≠ none ∧
      (⟨some "Test", some "Desc", some "strengthening", some 10, some 30⟩ :
          ExerciseInput).duration ≠ none ∧
      validateExercise ⟨some "Test", some "Desc", some "strengthening",
          some 0, none⟩ = some "Either reps or duration must be specified" := by
  decide

/-- C8 (amended): `validateExercise` checks, in order, name non-blank,
description non-blank, category present, and AT LEAST ONE of
`reps`/`duration` present with a non-zero value; it returns the first
failing check's error and returns no error exactly when all four checks
pass — in particular a definition with both `reps` and `duration` set
validates as correct. -/
theorem validateExercise_characterization (e : ExerciseInput) :
    (strBlank e.name = true → validateExercise e = some "Name is required") ∧
    (strBlank e.name = false → strBlank e.description = true →
      validateExercise e = some "Description is required") ∧
    (strBlank e.name = false → strBlank e.description = false →
      strFalsy e.category = true →
      validateExercise e = some "Category is required") ∧
    (strBlank e.name = false → strBlank e.description = false →
      strFalsy e.category = false → natFalsy e.reps = true →
      natFalsy e.duration = true →
      validateExercise e = some "Either reps or duration must be specified") ∧
    (strBlank e.name = false → strBlank e.description = false →
      strFalsy e.category = false →
      natFalsy e.reps = false ∨ natFalsy e.duration = false →
      validateExercise e = none) := by
  refine ⟨?_, ?_, ?_, ?_, ?_⟩
  · intro h1
    simp [validateExercise, h1]
  · intro h1 h2
    simp [validateExercise, h1, h2]
  · intro h1 h2 h3
    simp [validateExercise, h1, h2, h3]
  · intro h1 h2 h3 h4 h5
    simp [validateExercise, h1, h2, h3, h4, h5]
  · intro h1 h2 h3 h4
    rcases h4 with h4 | h4 <;> simp [validateExercise, h1, h2, h3, h4]

/-- Witness for C8 exercising all five branches of the characterization at
concrete inputs. -/
theorem validateExercise_characterization_witness :
    validateExercise ⟨some " ", some "Desc", some "c", some 10, none⟩ =
        some "Name is required" ∧
      validateExercise ⟨some "N", none, some "c", some 10, none⟩ =
        some "Description is required" ∧
      validateExercise ⟨some "N", some "Desc", none, some 10, none⟩ =
        some "Category is required" ∧
      validateExercise ⟨some "N", some "Desc", some "c", some 0, none⟩ =
        some "Either reps or duration must be specified" ∧
      validateExercise ⟨some "N", some "Desc", some "c", none, some 30⟩ = none :=
  ⟨(validateExercise_characterization
      ⟨some " ", some "Desc", some "c", some 10, none⟩).1 (by decide),
    (validateExercise_characterization
      ⟨some "N", none, some "c", some 10, none⟩).2.1 (by decide) (by decide),
    (validateExercise_characterization
      ⟨some "N", some "Desc", none, some 10, none⟩).2.2.1 (by decide) (by decide)
      (by decide),
    (validateExercise_characterization
      ⟨some "N", some "Desc", some "c", some 0, none⟩).2.2.2.1 (by decide)
      (by decide) (by decide) (by decide) (by decide),
    (validateExercise_characterization
      ⟨some "N", some "Desc", some "c", none, some 30⟩).2.2.2.2 (by decide)
      (by decide) (by decide) (Or.inr (by decide))⟩

/-! ## Claim C9: session start -/

/-- C9: starting a guided session for an unknown routine id fails with the
routine-not-found error (propagated from routine resolution, before any
session is created); for a known routine it persists exactly one new
session log with start timestamp `now`, an empty completion collection,
`completed = false` and no end timestamp, and returns that session's id. -/
theorem startSession_spec (catalog : List Exercise) (routines : List Routine)
    (store : List SessionLog) (rid : String) (now : Int) :
    (routineGetById routines rid = none →
      startSession catalog routines store rid now =
        Except.error "Routine not found") ∧
    (∀ r, routineGetById routines rid = some r →
      ∃ snew, startSession catalog routines store rid now =
          Except.ok (snew.id, store ++ [snew]) ∧
        snew.routineId = rid ∧ snew.startTime = now ∧ snew.exercises = [] ∧
        snew.completed = false ∧ snew.endTime = none) := by
  constructor
  · intro h
    simp [startSession, getRoutineExercises, h]
  · intro r hfind
    refine ⟨{ id := toString (store.length + 1),
              routineId := rid,
              startTime := now,
              endTime := none,
              exercises := [],
              completed := false },
      ?_, rfl, rfl, rfl, rfl, rfl⟩
    simp [startSession, getRoutineExercises, hfind, createSession, sessionSave]

/-- Witness for C9: both the unknown-routine failure and a successful
start against a one-routine store. -/
theorem startSession_spec_witness :
    startSession [] [] [] "9" 42 = Except.error "Routine not found" ∧
      ∃ snew,
        startSession [] [⟨"1", "Morning", RoutineType.morning, ["3"], 0⟩] [] "1" 42 =
            Except.ok (snew.id, [] ++ [snew]) ∧
          snew.routineId = "1" ∧ snew.startTime = 42 ∧ snew.exercises = [] ∧
          snew.completed = false ∧ snew.endTime = none :=
  ⟨(startSession_spec [] [] [] "9" 42).1 (by decide),
    (startSession_spec [] [⟨"1", "Morning", RoutineType.morning, ["3"], 0⟩] []
      "1" 42).2 ⟨"1", "Morning", RoutineType.morning, ["3"], 0⟩ (by decide)⟩

end Lumber
